import Mathlib

/-!
Verification of the delos-oracle rate-synchronization pipeline.

This file shallowly embeds the Python backend of the repository
(`bcb_client.py`, `oracle_updater.py`, `services/data_store.py`,
`services/anomaly_detector.py`, `scheduler.py`) into Lean and proves
properties of the embedded definitions.

Modelling conventions:
- Python floats are modelled as rationals (`ℚ`), with `float.__round__`
  (round-half-to-even) embedded exactly as `roundHalfEven`.
- Machine integers are `ℤ`/`Nat` (no overflow is relevant here).
- Exceptions become `Except` values; the per-item `try/except` in
  `_process_response` becomes an explicit fold.
- Network effects (the BCB HTTP API, the chain RPC) become explicit
  deterministic environment functions supplied as arguments.
-/

namespace Delos

/-- The closed set of supported rate types (`RateType` in `bcb_client.py`). -/
inductive RateType where
  | IPCA | CDI | SELIC | PTAX | IGPM | TR
deriving DecidableEq, Repr

/-- Iteration order of the Python `RateType` enum (used by `fetch_all_latest`). -/
def RateType.all : List RateType :=
  [.IPCA, .CDI, .SELIC, .PTAX, .IGPM, .TR]

/-- `RateType.value` in the Python enum. -/
def RateType.value : RateType → String
  | .IPCA => "IPCA"
  | .CDI => "CDI"
  | .SELIC => "SELIC"
  | .PTAX => "PTAX"
  | .IGPM => "IGPM"
  | .TR => "TR"

/-- `CHAINLINK_DECIMALS = 8` in `bcb_client.py`. -/
def CHAINLINK_DECIMALS : Nat := 8

/-- `CHAINLINK_PRECISION = 10 ** CHAINLINK_DECIMALS` in `bcb_client.py`. -/
def CHAINLINK_PRECISION : ℤ := 10 ^ CHAINLINK_DECIMALS

/-- Static per-rate configuration (`RateConfig` in `bcb_client.py`).
The string `description` field is omitted as it never influences control flow. -/
structure RateConfig where
  bcb_series : Nat
  decimals : Nat
  heartbeat_seconds : Nat
  min_value : ℤ
  max_value : ℤ
  is_percentage : Bool
  update_frequency : String
deriving DecidableEq, Repr

/-- `RATE_CONFIGS` in `bcb_client.py`, field for field. -/
def RATE_CONFIGS : RateType → RateConfig
  | .IPCA =>
      { bcb_series := 433, decimals := CHAINLINK_DECIMALS
        heartbeat_seconds := 35 * 24 * 3600
        min_value := -1000000000, max_value := 10000000000
        is_percentage := true, update_frequency := "monthly" }
  | .CDI =>
      { bcb_series := 12, decimals := CHAINLINK_DECIMALS
        heartbeat_seconds := 2 * 24 * 3600
        min_value := 0, max_value := 5000000000
        is_percentage := true, update_frequency := "daily" }
  | .SELIC =>
      { bcb_series := 432, decimals := CHAINLINK_DECIMALS
        heartbeat_seconds := 2 * 24 * 3600
        min_value := 0, max_value := 5000000000
        is_percentage := true, update_frequency := "daily" }
  | .PTAX =>
      { bcb_series := 1, decimals := CHAINLINK_DECIMALS
        heartbeat_seconds := 2 * 24 * 3600
        min_value := 100000000, max_value := 1500000000
        is_percentage := false, update_frequency := "daily" }
  | .IGPM =>
      { bcb_series := 189, decimals := CHAINLINK_DECIMALS
        heartbeat_seconds := 35 * 24 * 3600
        min_value := -1000000000, max_value := 10000000000
        is_percentage := true, update_frequency := "monthly" }
  | .TR =>
      { bcb_series := 226, decimals := CHAINLINK_DECIMALS
        heartbeat_seconds := 2 * 24 * 3600
        min_value := 0, max_value := 5000000000
        is_percentage := true, update_frequency := "daily" }

/-- `RateData` in `bcb_client.py`: a processed observation ready for
on-chain submission.  `timestamp` is an abstract epoch integer and the
original date string is kept verbatim. -/
structure RateData where
  rate_type : RateType
  answer : ℤ
  raw_value : ℚ
  decimals : Nat
  real_world_date : ℤ
  real_world_date_str : String
  timestamp : ℤ
  source : String
deriving DecidableEq, Repr

/-- The triple returned by the contract's `getRate` (see
`OracleUpdater.get_current_rate` in `oracle_updater.py`). -/
structure OnchainRate where
  answer : ℤ
  timestamp : ℤ
  real_world_date : ℤ
deriving DecidableEq, Repr

/-- The view of chain state the updater reads: `get_current_rate` returns
`none` when the contract reverts with "rate not found". -/
def ChainState : Type := RateType → Option OnchainRate

/-- `OracleUpdater.check_needs_update` in `oracle_updater.py`
(lines 135-153), branch for branch. -/
def check_needs_update (chain : ChainState) (rate_data : RateData) :
    Bool × String :=
  match chain rate_data.rate_type with
  | none => (true, "no_existing_data")
  | some current =>
      if current.real_world_date = rate_data.real_world_date then
        (false, "same_date:" ++ toString rate_data.real_world_date)
      else if current.real_world_date > rate_data.real_world_date then
        (false, "bcb_data_older:" ++ toString rate_data.real_world_date
          ++ "<" ++ toString current.real_world_date)
      else
        (true, "new_date:" ++ toString current.real_world_date
          ++ "->" ++ toString rate_data.real_world_date)

/-! ### The `rates` table and `store_rate` (`services/data_store.py`) -/

/-- One row of the `rates` table (the columns written by `store_rate`;
`id` and the defaulted `fetch_timestamp` are not modelled since the
claims are about the `UNIQUE(rate_type, real_world_date)` key and the
stored values). -/
structure RateRow where
  rate_type : String
  answer : ℤ
  raw_value : ℚ
  real_world_date : ℤ
  bcb_timestamp : ℤ
  source : String
deriving DecidableEq, Repr

/-- The `UNIQUE(rate_type, real_world_date)` key of the `rates` table. -/
def RateRow.key (r : RateRow) : String × ℤ := (r.rate_type, r.real_world_date)

/-- The row `DataStore.store_rate` writes for a given `RateData`. -/
def rowOf (rd : RateData) : RateRow :=
  { rate_type := rd.rate_type.value
    answer := rd.answer
    raw_value := rd.raw_value
    real_world_date := rd.real_world_date
    bcb_timestamp := rd.timestamp
    source := rd.source }

/-- `DataStore.store_rate` (`services/data_store.py` lines 181-210):
`INSERT OR REPLACE` under `UNIQUE(rate_type, real_world_date)` deletes
any row with the same key and inserts the new row. -/
def store_rate (table : List RateRow) (rd : RateData) : List RateRow :=
  table.filter (fun r => r.key ≠ (rowOf rd).key) ++ [rowOf rd]

/-- The table invariant enforced by `UNIQUE(rate_type, real_world_date)`:
no two rows share a key. -/
def keysUnique (table : List RateRow) : Prop :=
  (table.map RateRow.key).Nodup

instance (table : List RateRow) : Decidable (keysUnique table) := by
  unfold keysUnique; infer_instance

/-! ### BCB client: scaling, validation, response processing (`bcb_client.py`) -/

/-- The `BCBClientError` hierarchy of `bcb_client.py`.  `api` carries the
message of a `BCBAPIError` (transient network/HTTP failure); `parse` is
`BCBParseError`, `noData` is `BCBNoDataError`, `validation` is
`BCBValidationError` (circuit breaker). -/
inductive BCBErr where
  | api (msg : String)
  | parse
  | noData
  | validation
deriving DecidableEq, Repr

/-- Which errors the spec's retry wrapper treats as transient
(network/API failures only). -/
def BCBErr.transient : BCBErr → Bool
  | .api _ => true
  | _ => false

/-- Python's `round` on a float: round half to even.  `BCBClient._scale_to_chainlink`
calls `int(round(value * CHAINLINK_PRECISION))`; floats are modelled as
rationals, on which `float.__round__` is exactly this function. -/
def roundHalfEven (q : ℚ) : ℤ :=
  if Int.fract q < 1 / 2 then ⌊q⌋
  else if 1 / 2 < Int.fract q then ⌊q⌋ + 1
  else if ⌊q⌋ % 2 = 0 then ⌊q⌋ else ⌊q⌋ + 1

/-- `BCBClient._scale_to_chainlink` (`bcb_client.py` lines 380-396):
`int(round(value * CHAINLINK_PRECISION))`. -/
def scale_to_chainlink (value : ℚ) : ℤ :=
  roundHalfEven (value * (CHAINLINK_PRECISION : ℚ))

/-- `RateData.answer_as_percentage` (`bcb_client.py` lines 185-188):
`answer / CHAINLINK_PRECISION`, the descaling direction. -/
def answer_as_percentage (answer : ℤ) : ℚ :=
  (answer : ℚ) / (CHAINLINK_PRECISION : ℚ)

/-- `BCBClient._validate_value` (`bcb_client.py` lines 398-425): no-op when
the client was built with `validate=False`, otherwise raises
`BCBValidationError` outside the configured circuit-breaker bounds. -/
def validate_value (validate : Bool) (rate_type : RateType) (scaled_value : ℤ) :
    Except BCBErr Unit :=
  if !validate then .ok ()
  else
    let config := RATE_CONFIGS rate_type
    if scaled_value < config.min_value then .error .validation
    else if scaled_value > config.max_value then .error .validation
    else .ok ()

/-- One raw JSON record of the BCB response as seen by
`BCBClient._process_response`.  Parsing of the `data` (date) and `valor`
(value) text fields is abstracted into its outcome: `ok` carries the
parsed `(YYYYMMDD, timestamp)` date and the parsed decimal value,
`badDate` is a record whose date raises `BCBParseError`, and `malformed`
is a record raising `KeyError`/`TypeError`/`ValueError`. -/
inductive RawItem where
  | ok (dateStr : String) (dateInt : ℤ) (ts : ℤ) (value : ℚ)
  | badDate (dateStr : String)
  | malformed
deriving DecidableEq, Repr

/-- The `RateData` built for one successfully parsed record in
`BCBClient._process_response` (lines 460-470). -/
def mkRateData (rt : RateType) (dateStr : String) (dateInt ts : ℤ) (v : ℚ) :
    RateData :=
  { rate_type := rt
    answer := scale_to_chainlink v
    raw_value := v
    decimals := CHAINLINK_DECIMALS
    real_world_date := dateInt
    real_world_date_str := dateStr
    timestamp := ts
    source := "BCB-" ++ toString (RATE_CONFIGS rt).bcb_series }

/-- The per-record loop of `BCBClient._process_response` (lines 444-479):
parse failures (`BCBParseError`, `KeyError`/`TypeError`/`ValueError`) skip
the record and continue; `BCBValidationError` is re-raised, aborting the
whole batch. -/
def process_items (validate : Bool) (rt : RateType) :
    List RawItem → Except BCBErr (List RateData)
  | [] => .ok []
  | .badDate _ :: rest => process_items validate rt rest
  | .malformed :: rest => process_items validate rt rest
  | .ok ds d ts v :: rest =>
      match validate_value validate rt (scale_to_chainlink v) with
      | .error e => .error e
      | .ok _ => (process_items validate rt rest).map (mkRateData rt ds d ts v :: ·)

/-- The final `results.sort(key=..., reverse=True)`: sort by
`real_world_date` descending. -/
def sortByDateDesc (l : List RateData) : List RateData :=
  l.insertionSort (fun a b => b.real_world_date ≤ a.real_world_date)

/-- `BCBClient._process_response` (`bcb_client.py` lines 427-483). -/
def process_response (validate : Bool) (data : List RawItem) (rt : RateType) :
    Except BCBErr (List RateData) :=
  (process_items validate rt data).map sortByDateDesc

/-! ### Retry wrapper (modelled from the spec)

`RateScheduler._update_rates` (`scheduler.py` lines 203-208) calls
`bcb.fetch_with_retry(rate_type, max_retries=..., base_delay=...,
max_delay=...)`, but no `fetch_with_retry` is defined anywhere under the
repository sources — only this caller exists. -/

/-- Modelled from the spec: `BCBClient.fetch_with_retry` is missing from the
sources (only its caller in `scheduler.py` exists).  Following §4.1/§7 of the
spec: retry only transient network/API errors with exponential backoff
`min(base_delay * 2^attempt, max_delay)` between attempts, give up after
`max_retries` attempts surfacing the last error, and surface validation or
parse errors immediately without retrying.  `attempts i` is the outcome of
the i-th fetch attempt; the second component returned is the list of
backoff delays waited. -/
def fetch_retry_from (attempts : Nat → Except BCBErr RateData)
    (base_delay max_delay : ℚ) (i : Nat) :
    Nat → Except BCBErr RateData × List ℚ
  | 0 => (.error (.api "no attempts allowed"), [])
  | n + 1 =>
      match attempts i with
      | .ok rd => (.ok rd, [])
      | .error (.api msg) =>
          if n = 0 then (.error (.api msg), [])
          else
            let d := min (base_delay * 2 ^ i) max_delay
            let res := fetch_retry_from attempts base_delay max_delay (i + 1) n
            (res.1, d :: res.2)
      | .error e => (.error e, [])

/-- Modelled from the spec (see `fetch_retry_from`): the retry wrapper
entry point, starting at attempt 0 with `max_retries` attempts allowed. -/
def fetch_with_retry (attempts : Nat → Except BCBErr RateData)
    (max_retries : Nat) (base_delay max_delay : ℚ) :
    Except BCBErr RateData × List ℚ :=
  fetch_retry_from attempts base_delay max_delay 0 max_retries

/-! ### Anomaly detector (`services/anomaly_detector.py`)

The Python code computes `std_dev = statistics.stdev(...)` (a square root,
irrational in general) and `z_score = abs(current - mean) / std_dev`.  The
embedding keeps every branch decision and every exactly-representable
field; the one irrational quantity is carried as its square
(`std_dev_sq`), and `z_score` is an `Option ℚ` that is `some` exactly on
the branches where the source's value is rational (`none` only on the
general value-spike branch, whose z-score the theorems characterise over
`ℝ` via `Real.sqrt`). -/

/-- `AnomalyResult` of `services/anomaly_detector.py` (message omitted;
see the section comment for `std_dev_sq`/`z_score`). -/
structure AnomalyResult where
  is_anomaly : Bool
  anomaly_type : Option String
  current_value : ℚ
  mean : ℚ
  std_dev_sq : ℚ
  z_score : Option ℚ
deriving DecidableEq, Repr

/-- Constructor arguments of `AnomalyDetector.__init__`. -/
structure AnomalyDetector where
  std_threshold : ℚ
  lookback_days : Nat
  velocity_threshold : ℚ
  min_history_size : Nat
deriving DecidableEq, Repr

/-- The Python constructor defaults
`(std_threshold=3.0, lookback_days=30, velocity_threshold=0.5, min_history_size=5)`. -/
def AnomalyDetector.default : AnomalyDetector :=
  { std_threshold := 3, lookback_days := 30
    velocity_threshold := 1 / 2, min_history_size := 5 }

/-- `statistics.mean`. -/
def listMean (l : List ℚ) : ℚ := l.sum / l.length

/-- The square of `statistics.stdev` (sample standard deviation):
`Σ (x - mean)² / (n - 1)`. -/
def sampleVariance (l : List ℚ) : ℚ :=
  ((l.map (fun x => (x - listMean l) ^ 2)).sum) / ((l.length : ℚ) - 1)

/-- `AnomalyDetector.detect_value_anomaly` (`services/anomaly_detector.py`
lines 86-153).  The source's `std_dev == 0` test is `sampleVariance = 0`
(the variance is nonnegative here), and the general branch's
`z_score > std_threshold` with `z_score = |current - mean| / √variance`
is encoded without the square root as
`std_threshold < 0 ∨ (current - mean)² > std_threshold² · variance`,
which is equivalent for positive variance (proved in
`value_anomaly_z_score_charac` below).  Defined for histories of length
at least 2 on the statistics branch, as in the source (where
`statistics.stdev` needs two data points). -/
def detect_value_anomaly (det : AnomalyDetector) (current_value : ℚ)
    (historical_values : List ℚ) : AnomalyResult :=
  if historical_values.length < det.min_history_size then
    { is_anomaly := false, anomaly_type := none
      current_value := current_value, mean := current_value
      std_dev_sq := 0, z_score := some 0 }
  else
    let mean := listMean historical_values
    let var := sampleVariance historical_values
    if var = 0 then
      let isAnom : Bool := current_value ≠ mean
      { is_anomaly := isAnom
        anomaly_type := if isAnom then some "value_spike" else none
        current_value := current_value, mean := mean
        std_dev_sq := 0, z_score := some (if isAnom then 999 else 0) }
    else
      let isAnom : Bool :=
        decide (det.std_threshold < 0 ∨
          (current_value - mean) ^ 2 > det.std_threshold ^ 2 * var)
      { is_anomaly := isAnom
        anomaly_type := if isAnom then some "value_spike" else none
        current_value := current_value, mean := mean
        std_dev_sq := var, z_score := none }

/-- `AnomalyDetector.detect_stale_data` (`services/anomaly_detector.py`
lines 155-190), with wall-clock `now` passed explicitly. -/
def detect_stale_data (now last_update : ℚ) (heartbeat_seconds : Nat) :
    AnomalyResult :=
  let age_seconds := now - last_update
  let is_stale : Bool := age_seconds > (heartbeat_seconds : ℚ)
  let heartbeat_ratio :=
    if (heartbeat_seconds : ℚ) > 0 then age_seconds / heartbeat_seconds else 0
  { is_anomaly := is_stale
    anomaly_type := if is_stale then some "stale_data" else none
    current_value := age_seconds, mean := heartbeat_seconds
    std_dev_sq := 0, z_score := some heartbeat_ratio }

/-- `AnomalyDetector.detect_velocity_anomaly` (`services/anomaly_detector.py`
lines 192-258), branch for branch; all quantities are exact rationals. -/
def detect_velocity_anomaly (det : AnomalyDetector)
    (current_value previous_value : ℚ) (time_delta_hours : ℚ) :
    AnomalyResult :=
  if previous_value = 0 then
    if current_value = 0 then
      { is_anomaly := false, anomaly_type := none
        current_value := current_value, mean := previous_value
        std_dev_sq := 0, z_score := some 0 }
    else
      { is_anomaly := true, anomaly_type := some "velocity"
        current_value := current_value, mean := previous_value
        std_dev_sq := 0, z_score := some 999 }
  else
    let change_rate := |current_value - previous_value| / |previous_value|
    let daily_change :=
      if time_delta_hours > 0 then change_rate * (24 / time_delta_hours)
      else change_rate
    let isAnom : Bool := daily_change > det.velocity_threshold
    let velocity_ratio :=
      if det.velocity_threshold > 0 then daily_change / det.velocity_threshold
      else 0
    { is_anomaly := isAnom
      anomaly_type := if isAnom then some "velocity" else none
      current_value := current_value, mean := previous_value
      std_dev_sq := 0, z_score := some velocity_ratio }

/-! ### Oracle updater and scheduler orchestration
(`oracle_updater.py`, `scheduler.py`)

One job run is embedded as a pure function of an explicit environment:
the (deterministic, per-run) outcome of the retried BCB fetch for each
rate type, the chain's current per-rate state, the fate of the batch
transaction, and the stored history served by `get_rate_history`. -/

/-- The external world one run of the pipeline observes. -/
structure ChainEnv where
  /-- Outcome of the (retried) BCB fetch for a rate type during this run;
  `fetch_with_retry` itself is modelled above, this is its result. -/
  fetch : RateType → Except BCBErr RateData
  /-- `getRate` view of the oracle contract. -/
  chain : ChainState
  /-- `receipt["status"] == 1` for the batch transaction. -/
  txOk : Bool
  /-- Number of receipt logs with a nonempty topic list (the count the
  code stores in `actual_updated`, `oracle_updater.py` lines 321-325). -/
  txLogsCount : Nat
  /-- Whether the batch-send `try` block raises (gas estimation, signing,
  broadcast or receipt wait failing). -/
  txRaises : Bool
  /-- Raw-value history served by `DataStore.get_rate_history`. -/
  history : RateType → List ℚ

/-- `UpdateResult` of `oracle_updater.py` (the fields the claims are
about; `tx_sent` stands in for `tx_hash is not None`). -/
structure UpdateResult where
  success : Bool
  rates_updated : Nat
  rates_skipped : Nat
  tx_sent : Bool
  error : Option String
deriving DecidableEq, Repr

/-- `BCBClient.fetch_all_latest` (`bcb_client.py` lines 610-626): try every
rate type in enum order, keep the successes, log and skip the failures. -/
def fetch_all_latest (env : ChainEnv) : List RateData :=
  RateType.all.filterMap (fun rt => (env.fetch rt).toOption)

/-- The pre-check filter of `OracleUpdater.sync_all_rates`
(lines 254-262): `check_needs_update` is computed for logging/counting. -/
def needs_update (env : ChainEnv) (rd : RateData) : Bool :=
  (check_needs_update env.chain rd).1

/-- The `to_update` list of `OracleUpdater.sync_all_rates` (with
`force=False`): fetched rates whose pre-check says they need updating. -/
def to_update (env : ChainEnv) : List RateData :=
  (fetch_all_latest env).filter (needs_update env)

/-- `actual_updated` in `OracleUpdater.sync_all_rates` (lines 321-325):
the count of update events in the receipt.  The code computes this value
and never uses it afterwards. -/
def actual_updated (env : ChainEnv) : Nat := env.txLogsCount

/-- `OracleUpdater.sync_all_rates` (`oracle_updater.py` lines 235-351),
`force=False`.  Returns the `UpdateResult` plus the batch payload
actually passed to `batchUpdateRates` (`none` when no transaction was
attempted).  Mirrors the source: the payload is built from *all* fetched
rates (lines 277-287, "send all, let contract filter"); on success
`rates_updated` is `len(to_update)` (line 329). -/
def sync_all_rates (env : ChainEnv) : UpdateResult × Option (List RateData) :=
  let rates := fetch_all_latest env
  if rates.isEmpty then
    ({ success := false, rates_updated := 0, rates_skipped := 0
       tx_sent := false, error := some "No rates fetched from BCB" }, none)
  else
    let upd := rates.filter (needs_update env)
    let skip := rates.filter (fun rd => !needs_update env rd)
    if upd.isEmpty then
      ({ success := true, rates_updated := 0, rates_skipped := skip.length
         tx_sent := false, error := none }, none)
    else if env.txRaises then
      ({ success := false, rates_updated := 0, rates_skipped := 0
         tx_sent := false, error := some "batch update failed" }, none)
    else
      ({ success := env.txOk
         rates_updated := if env.txOk then upd.length else 0
         rates_skipped := skip.length
         tx_sent := true
         error := if env.txOk then none else some "Transaction reverted" },
       some rates)

/-- The `results` dictionary built by `RateScheduler._update_rates`
together with the final status written to the `scheduler_runs` row and
the batch payload submitted on-chain. -/
structure RunOutcome where
  success : Bool
  rates_updated : Nat
  rates_skipped : Nat
  rates_failed : Nat
  anomalies_detected : Nat
  run_status : String
  submitted : Option (List RateData)
deriving DecidableEq, Repr

/-- `RateScheduler._update_rates` (`scheduler.py` lines 158-339): fetch
each requested rate type (failures counted in `rates_failed`, tolerated);
if nothing was fetched the run ends `failed` with no chain call;
otherwise run the value-anomaly check per fetched rate against stored
history (logged, never blocking), store each observation, then call
`OracleUpdater.sync_all_rates` — which re-fetches all rate types itself —
and close the run `completed` iff the oracle result succeeded.  The
per-rate fetch outcome is `env.fetch` (the scheduler calls the
spec-modelled `fetch_with_retry`). -/
def update_rates (env : ChainEnv) (det : AnomalyDetector)
    (rate_types : List RateType) : RunOutcome :=
  let fetched := rate_types.filterMap (fun rt => (env.fetch rt).toOption)
  let failed := (rate_types.filter (fun rt => !(env.fetch rt).isOk)).length
  if fetched.isEmpty then
    { success := false, rates_updated := 0, rates_skipped := 0
      rates_failed := failed, anomalies_detected := 0
      run_status := "failed", submitted := none }
  else
    let anomalies := (fetched.filter (fun rd =>
      !(env.history rd.rate_type).isEmpty &&
        (detect_value_anomaly det rd.raw_value
          (env.history rd.rate_type)).is_anomaly)).length
    let oracle := sync_all_rates env
    { success := oracle.1.success
      rates_updated := oracle.1.rates_updated
      rates_skipped := oracle.1.rates_skipped
      rates_failed := failed
      anomalies_detected := anomalies
      run_status := if oracle.1.success then "completed" else "failed"
      submitted := oracle.2 }

/-- The records of a response that parse successfully, processed in input
order (what the `_process_response` loop accumulates when validation
never fires). -/
def parsedRecords (rt : RateType) (data : List RawItem) : List RateData :=
  data.filterMap (fun item =>
    match item with
    | .ok ds d ts v => some (mkRateData rt ds d ts v)
    | .badDate _ => none
    | .malformed => none)

/-- Environment for the C8 witness: four daily rates fetch fine, the two
monthly ones fail after retries, the chain holds no prior data and the
batch transaction succeeds. -/
def envC8 : ChainEnv :=
  { fetch := fun rt =>
      match rt with
      | .IPCA => .error (.api "bcb down")
      | .IGPM => .error (.api "bcb down")
      | .CDI => .ok (mkRateData .CDI "26/11/2024" 20241126 0 11)
      | .SELIC => .ok (mkRateData .SELIC "26/11/2024" 20241126 0 12)
      | .PTAX => .ok (mkRateData .PTAX "26/11/2024" 20241126 0 5)
      | .TR => .ok (mkRateData .TR "26/11/2024" 20241126 0 1)
    chain := fun _ => none
    txOk := true
    txLogsCount := 4
    txRaises := false
    history := fun _ => [] }

/-- Environment for the C9 counterexample: only CDI fetches, the chain is
empty so CDI needs an update, the batch transaction succeeds but its
receipt carries no update event. -/
def envC9 : ChainEnv :=
  { fetch := fun rt =>
      match rt with
      | .CDI => .ok (mkRateData .CDI "26/11/2024" 20241126 0 11)
      | _ => .error (.api "bcb down")
    chain := fun _ => none
    txOk := true
    txLogsCount := 0
    txRaises := false
    history := fun _ => [] }

/-! ## Theorems -/

/-- Claim C1: `check_needs_update` returns `(true, reason)` exactly when
no prior on-chain record exists for the rate type or the on-chain
reference date is strictly older than the candidate's; when the on-chain
reference date is equal to or newer than the candidate's it returns
`(false, reason)` — a skip, not an error. -/
theorem check_needs_update_correct (chain : ChainState) (rd : RateData) :
    ((check_needs_update chain rd).1 = true ↔
      chain rd.rate_type = none ∨
        ∃ cur, chain rd.rate_type = some cur ∧
          cur.real_world_date < rd.real_world_date)
  ∧ ∀ cur, chain rd.rate_type = some cur →
      rd.real_world_date ≤ cur.real_world_date →
      (check_needs_update chain rd).1 = false := by
  cases h : chain rd.rate_type with
  | none =>
      constructor
      · simp [check_needs_update, h]
      · intro cur hc
        exact Option.noConfusion hc
  | some cur =>
      constructor
      · simp only [check_needs_update, h]
        split_ifs with h1 h2
        · simp only [Bool.false_eq_true, false_iff]
          rintro (hn | ⟨c, hc, hlt⟩)
          · exact hn
          · obtain rfl : cur = c := Option.some.inj hc
            omega
        · simp only [Bool.false_eq_true, false_iff]
          rintro (hn | ⟨c, hc, hlt⟩)
          · exact hn
          · obtain rfl : cur = c := Option.some.inj hc
            omega
        · simp only [true_iff]
          exact Or.inr ⟨cur, rfl, by omega⟩
      · intro c hc hle
        obtain rfl : cur = c := Option.some.inj hc
        simp only [check_needs_update, h]
        split_ifs with h1 h2
        · rfl
        · rfl
        · omega

/-- Witness for C1 at a concrete input: with no existing on-chain record
the pre-check reports that an update is needed. -/
theorem check_needs_update_correct_witness :
    (check_needs_update (fun _ => none)
      (mkRateData .CDI "26/11/2024" 20241126 0 (109 / 10))).1 = true :=
  (check_needs_update_correct (fun _ => none) _).1.mpr (Or.inl rfl)

/-- After any `store_rate`, the rows matching the new row's key are
exactly the new row. -/
theorem store_rate_filter_key (t : List RateRow) (rd : RateData) :
    (store_rate t rd).filter (fun r => r.key = (rowOf rd).key) = [rowOf rd] := by
  unfold store_rate
  rw [List.filter_append, List.filter_filter]
  have h1 : ∀ r : RateRow,
      (decide (r.key = (rowOf rd).key) && decide (r.key ≠ (rowOf rd).key)) = false := by
    intro r
    by_cases h : r.key = (rowOf rd).key <;> simp [h]
  rw [List.filter_congr (fun r _ => h1 r)]
  simp

/-- `store_rate` preserves key uniqueness of the table. -/
theorem store_rate_keysUnique (t : List RateRow) (rd : RateData)
    (h : keysUnique t) : keysUnique (store_rate t rd) := by
  unfold keysUnique store_rate
  rw [List.map_append]
  refine List.Nodup.append ?_ (List.nodup_singleton _) ?_
  · exact List.Nodup.sublist ((List.filter_sublist t).map RateRow.key) h
  · intro k hk hk'
    simp only [List.map_cons, List.map_nil, List.mem_singleton] at hk'
    subst hk'
    obtain ⟨r, hr, hrk⟩ := List.mem_map.1 hk
    have hne := List.of_mem_filter hr
    simp only [decide_not, Bool.not_eq_eq_eq_not, Bool.not_true,
      decide_eq_false_iff_not] at hne
    exact hne hrk

/-- Claim C2: storing two observations with the same
`(rate_type, real_world_date)` key leaves exactly one row for that key,
holding the second (latest) value, and `store_rate` preserves the
invariant that the `rates` table never holds two rows with the same key. -/
theorem store_rate_upsert (table : List RateRow) (rd1 rd2 : RateData)
    (_hkey : (rowOf rd1).key = (rowOf rd2).key) :
    ((store_rate (store_rate table rd1) rd2).filter
        (fun r => r.key = (rowOf rd2).key) = [rowOf rd2])
  ∧ ∀ rd, keysUnique table → keysUnique (store_rate table rd) :=
  ⟨store_rate_filter_key _ rd2, fun rd h => store_rate_keysUnique table rd h⟩

/-- Witness for C2 at a concrete input: two CDI observations for reference
date 20241126 with different values, stored in sequence into an empty
table, leave exactly the one row with the second value. -/
theorem store_rate_upsert_witness :
    (rowOf (mkRateData .CDI "26/11/2024" 20241126 0 (109 / 10))).key =
      (rowOf (mkRateData .CDI "26/11/2024" 20241126 0 (111 / 10))).key
  ∧ (store_rate (store_rate [] (mkRateData .CDI "26/11/2024" 20241126 0 (109 / 10)))
        (mkRateData .CDI "26/11/2024" 20241126 0 (111 / 10))).filter
      (fun r => r.key = (rowOf (mkRateData .CDI "26/11/2024" 20241126 0 (111 / 10))).key)
      = [rowOf (mkRateData .CDI "26/11/2024" 20241126 0 (111 / 10))] :=
  ⟨by decide,
   (store_rate_upsert [] (mkRateData .CDI "26/11/2024" 20241126 0 (109 / 10))
     (mkRateData .CDI "26/11/2024" 20241126 0 (111 / 10)) (by decide)).1⟩

/-- `roundHalfEven` is a nearest-integer rounding: it is never more than
half a unit away from its argument. -/
theorem roundHalfEven_close (q : ℚ) : |(roundHalfEven q : ℚ) - q| ≤ 1 / 2 := by
  have hfr : Int.fract q = q - ⌊q⌋ := rfl
  have h0 : (0 : ℚ) ≤ Int.fract q := Int.fract_nonneg q
  have h1 : Int.fract q < 1 := Int.fract_lt_one q
  unfold roundHalfEven
  split_ifs with ha hb hc
  · rw [abs_le]
    constructor <;> linarith
  · rw [abs_le]
    push_cast
    constructor <;> linarith
  · have : Int.fract q = 1 / 2 := by linarith
    rw [abs_le]
    constructor <;> linarith
  · have : Int.fract q = 1 / 2 := by linarith
    rw [abs_le]
    push_cast
    constructor <;> linarith

/-- Away from exact ties, `roundHalfEven` agrees with rounding to the
nearest integer (Mathlib's `round`). -/
theorem roundHalfEven_eq_round (q : ℚ) (h : Int.fract q ≠ 1 / 2) :
    roundHalfEven q = round q := by
  have hfr : Int.fract q = q - ⌊q⌋ := rfl
  have h0 : (0 : ℚ) ≤ Int.fract q := Int.fract_nonneg q
  have h1 : Int.fract q < 1 := Int.fract_lt_one q
  rw [round_eq]
  unfold roundHalfEven
  split_ifs with ha hb hc
  · symm
    rw [Int.floor_eq_iff]
    refine ⟨by linarith, by linarith⟩
  · symm
    rw [Int.floor_eq_iff]
    refine ⟨by push_cast; linarith, by push_cast; linarith⟩
  · exact absurd (by linarith : Int.fract q = 1 / 2) h
  · exact absurd (by linarith : Int.fract q = 1 / 2) h

/-- Claim C3: the fixed-point scaling returns `round(v * 10^8)` with one
rounding mode applied consistently (round half to even, Python's `round`;
away from exact ties this is nearest-integer rounding), the scaled
integer is within half a unit of `v * 10^8`, and descaling by dividing by
`10^8` (`answer_as_percentage`) recovers `v` to within one unit of the
last scaled digit. -/
theorem scale_descale_round_trip (v : ℚ) :
    |(scale_to_chainlink v : ℚ) - v * (CHAINLINK_PRECISION : ℚ)| ≤ 1 / 2
  ∧ (Int.fract (v * (CHAINLINK_PRECISION : ℚ)) ≠ 1 / 2 →
      scale_to_chainlink v = round (v * (CHAINLINK_PRECISION : ℚ)))
  ∧ |answer_as_percentage (scale_to_chainlink v) - v| ≤
      1 / (CHAINLINK_PRECISION : ℚ) := by
  have hP : (CHAINLINK_PRECISION : ℚ) = 100000000 := by
    norm_num [CHAINLINK_PRECISION, CHAINLINK_DECIMALS]
  have h1 : |(scale_to_chainlink v : ℚ) - v * (CHAINLINK_PRECISION : ℚ)| ≤ 1 / 2 :=
    roundHalfEven_close (v * (CHAINLINK_PRECISION : ℚ))
  refine ⟨h1, fun h => roundHalfEven_eq_round _ h, ?_⟩
  unfold answer_as_percentage
  rw [hP] at h1 ⊢
  have key : (scale_to_chainlink v : ℚ) / 100000000 - v =
      ((scale_to_chainlink v : ℚ) - v * 100000000) / 100000000 := by
    ring
  rw [key, abs_div, show |(100000000 : ℚ)| = 100000000 from by norm_num]
  linarith

/-- Witness for C3 at a concrete input: scaling `1.23` gives exactly
`round(1.23 * 10^8) = 123000000` (no tie), and the round trip is exact. -/
theorem scale_descale_round_trip_witness :
    Int.fract ((123 / 100 : ℚ) * (CHAINLINK_PRECISION : ℚ)) ≠ 1 / 2
  ∧ scale_to_chainlink (123 / 100) =
      round ((123 / 100 : ℚ) * (CHAINLINK_PRECISION : ℚ)) :=
  ⟨by norm_num [CHAINLINK_PRECISION, CHAINLINK_DECIMALS, Int.fract],
   (scale_descale_round_trip (123 / 100)).2.1
     (by norm_num [CHAINLINK_PRECISION, CHAINLINK_DECIMALS, Int.fract])⟩

/-- Every backoff delay produced by the retry loop is of the capped
exponential form, regardless of the starting attempt index. -/
theorem fetch_retry_from_delays (attempts : Nat → Except BCBErr RateData)
    (base_delay max_delay : ℚ) (n i : Nat) (d : ℚ)
    (hd : d ∈ (fetch_retry_from attempts base_delay max_delay i n).2) :
    ∃ j, d = min (base_delay * 2 ^ j) max_delay := by
  induction n generalizing i with
  | zero => simp [fetch_retry_from] at hd
  | succ m ih =>
      rw [fetch_retry_from] at hd
      cases ha : attempts i with
      | ok rd => rw [ha] at hd; simp at hd
      | error e =>
          cases e with
          | api msg =>
              rw [ha] at hd
              by_cases hm : m = 0
              · simp [hm] at hd
              · simp only [hm, if_false] at hd
                rcases List.mem_cons.1 hd with h | h
                · exact ⟨i, h⟩
                · exact ih (i + 1) h
          | parse => rw [ha] at hd; simp at hd
          | noData => rw [ha] at hd; simp at hd
          | validation => rw [ha] at hd; simp at hd

/-- If every attempt up to the budget fails transiently, the retry loop
surfaces the error of the last attempt tried. -/
theorem fetch_retry_from_exhausted (attempts : Nat → Except BCBErr RateData)
    (base_delay max_delay : ℚ) (msgs : Nat → String) (n i : Nat) (hn : 0 < n)
    (hfail : ∀ j, j < n → attempts (i + j) = .error (.api (msgs (i + j)))) :
    (fetch_retry_from attempts base_delay max_delay i n).1 =
      .error (.api (msgs (i + n - 1))) := by
  induction n generalizing i with
  | zero => omega
  | succ m ih =>
      have h0 : attempts i = .error (.api (msgs i)) := by
        have := hfail 0 (Nat.succ_pos m)
        simpa using this
      rw [fetch_retry_from, h0]
      by_cases hm : m = 0
      · subst hm
        simp
      · simp only [hm, if_false]
        have := ih (i + 1) (Nat.pos_of_ne_zero hm) (fun j hj => by
          have := hfail (j + 1) (by omega)
          simpa [Nat.add_assoc, Nat.add_comm 1 j] using this)
        simpa [show i + 1 + m - 1 = i + (m + 1) - 1 by omega] using this

/-- A success within the retry budget, after only transient failures, is
returned by the retry loop. -/
theorem fetch_retry_from_success (attempts : Nat → Except BCBErr RateData)
    (base_delay max_delay : ℚ) (n i k : Nat) (rd : RateData) (hk : k < n)
    (hok : attempts (i + k) = .ok rd)
    (hbefore : ∀ j, j < k → ∃ m, attempts (i + j) = .error (.api m)) :
    (fetch_retry_from attempts base_delay max_delay i n).1 = .ok rd := by
  induction n generalizing i k with
  | zero => omega
  | succ m ih =>
      cases k with
      | zero =>
          rw [fetch_retry_from]
          simp only [Nat.add_zero] at hok
          rw [hok]
      | succ k' =>
          obtain ⟨msg, h0⟩ := hbefore 0 (Nat.succ_pos k')
          simp only [Nat.add_zero] at h0
          rw [fetch_retry_from, h0]
          have hm : m ≠ 0 := by omega
          simp only [hm, if_false]
          exact ih (i + 1) k' (by omega)
            (by simpa [Nat.add_assoc, Nat.add_comm 1 k'] using hok)
            (fun j hj => by
              have := hbefore (j + 1) (by omega)
              simpa [Nat.add_assoc, Nat.add_comm 1 j] using this)

/-- Claim C4 (spec-modelled: `fetch_with_retry` is absent from the sources,
only its caller exists; the definition above follows the spec): the retry
wrapper (a) surfaces a non-transient (validation/parse/no-data) first
error immediately with no retry, (b) waits only delays of the form
`min(base_delay * 2^i, max_delay)`, each bounded by `max_delay`, (c) after
`max_retries` transient failures gives up surfacing the last error, and
(d) returns a success that occurs within the budget after only transient
failures. -/
theorem fetch_with_retry_policy (attempts : Nat → Except BCBErr RateData)
    (max_retries : Nat) (base_delay max_delay : ℚ) (hn : 0 < max_retries) :
    (∀ e, attempts 0 = .error e → e.transient = false →
      fetch_with_retry attempts max_retries base_delay max_delay = (.error e, []))
  ∧ (∀ d ∈ (fetch_with_retry attempts max_retries base_delay max_delay).2,
      (∃ i, d = min (base_delay * 2 ^ i) max_delay) ∧ d ≤ max_delay)
  ∧ (∀ msgs : Nat → String,
      (∀ i, i < max_retries → attempts i = .error (.api (msgs i))) →
      (fetch_with_retry attempts max_retries base_delay max_delay).1 =
        .error (.api (msgs (max_retries - 1))))
  ∧ (∀ k rd, k < max_retries → attempts k = .ok rd →
      (∀ i, i < k → ∃ m, attempts i = .error (.api m)) →
      (fetch_with_retry attempts max_retries base_delay max_delay).1 = .ok rd) := by
  refine ⟨?_, ?_, ?_, ?_⟩
  · intro e he htr
    obtain ⟨m, rfl⟩ : ∃ m, max_retries = m + 1 := ⟨max_retries - 1, by omega⟩
    unfold fetch_with_retry
    rw [fetch_retry_from, he]
    cases e with
    | api msg => simp [BCBErr.transient] at htr
    | parse => rfl
    | noData => rfl
    | validation => rfl
  · intro d hd
    refine ⟨fetch_retry_from_delays attempts base_delay max_delay max_retries 0 d hd, ?_⟩
    obtain ⟨j, rfl⟩ :=
      fetch_retry_from_delays attempts base_delay max_delay max_retries 0 d hd
    exact min_le_right _ _
  · intro msgs hfail
    have := fetch_retry_from_exhausted attempts base_delay max_delay msgs
      max_retries 0 hn (fun j hj => by simpa using hfail j hj)
    simpa using this
  · intro k rd hk hok hbefore
    exact fetch_retry_from_success attempts base_delay max_delay max_retries 0 k
      rd hk (by simpa using hok) (fun j hj => by simpa using hbefore j hj)

/-- Witness for C4 at concrete inputs: with every attempt failing
transiently the wrapper surfaces the last error after the budget, and a
first-attempt validation error is surfaced immediately with no backoff. -/
theorem fetch_with_retry_policy_witness :
    (fetch_with_retry (fun _ => .error (.api "boom")) 3 1 60).1 =
      .error (.api "boom")
  ∧ fetch_with_retry (fun _ => .error .validation) 3 1 60 =
      (.error .validation, []) :=
  ⟨(fetch_with_retry_policy (fun _ => .error (.api "boom")) 3 1 60
      (by decide)).2.2.1 (fun _ => "boom") (fun _ _ => rfl),
   (fetch_with_retry_policy (fun _ => .error .validation) 3 1 60
      (by decide)).1 .validation rfl rfl⟩

/-- With validation on, an in-bounds scaled value passes the circuit
breaker. -/
theorem validate_value_true_ok (rt : RateType) (s : ℤ)
    (h : (RATE_CONFIGS rt).min_value ≤ s ∧ s ≤ (RATE_CONFIGS rt).max_value) :
    validate_value true rt s = .ok () := by
  unfold validate_value
  simp only [Bool.not_true, Bool.false_eq_true, if_false]
  split_ifs with h1 h2
  · omega
  · omega
  · rfl

/-- With validation on, an out-of-bounds scaled value raises the
circuit-breaker error. -/
theorem validate_value_true_err (rt : RateType) (s : ℤ)
    (h : ¬((RATE_CONFIGS rt).min_value ≤ s ∧ s ≤ (RATE_CONFIGS rt).max_value)) :
    validate_value true rt s = .error .validation := by
  unfold validate_value
  simp only [Bool.not_true, Bool.false_eq_true, if_false]
  split_ifs with h1 h2
  · rfl
  · rfl
  · omega

/-- When validation never fires on the parseable records, the processing
loop keeps exactly the parseable records, in order. -/
theorem process_items_all_parsed (validate : Bool) (rt : RateType)
    (data : List RawItem)
    (h : ∀ ds d ts v, RawItem.ok ds d ts v ∈ data →
      validate_value validate rt (scale_to_chainlink v) = .ok ()) :
    process_items validate rt data = .ok (parsedRecords rt data) := by
  induction data with
  | nil => rfl
  | cons item rest ih =>
      have hrest : ∀ ds d ts v, RawItem.ok ds d ts v ∈ rest →
          validate_value validate rt (scale_to_chainlink v) = .ok () :=
        fun ds d ts v hm => h ds d ts v (List.mem_cons_of_mem _ hm)
      cases item with
      | badDate ds => simpa [process_items, parsedRecords] using ih hrest
      | malformed => simpa [process_items, parsedRecords] using ih hrest
      | ok ds d ts v =>
          have hv := h ds d ts v (List.mem_cons_self _ _)
          rw [process_items, hv, ih hrest]
          rfl

/-- If some parseable record is outside the circuit-breaker bounds, the
whole batch aborts with the validation error (no partial results). -/
theorem process_items_err_of_out (rt : RateType) (data : List RawItem)
    (h : ∃ ds d ts v, RawItem.ok ds d ts v ∈ data ∧
      ¬((RATE_CONFIGS rt).min_value ≤ scale_to_chainlink v ∧
        scale_to_chainlink v ≤ (RATE_CONFIGS rt).max_value)) :
    process_items true rt data = .error .validation := by
  induction data with
  | nil =>
      obtain ⟨_, _, _, _, hmem, _⟩ := h
      simp at hmem
  | cons item rest ih =>
      obtain ⟨ds, d, ts, v, hmem, hout⟩ := h
      cases item with
      | badDate ds' =>
          rw [process_items]
          refine ih ⟨ds, d, ts, v, ?_, hout⟩
          rcases List.mem_cons.1 hmem with he | hm
          · exact RawItem.noConfusion he
          · exact hm
      | malformed =>
          rw [process_items]
          refine ih ⟨ds, d, ts, v, ?_, hout⟩
          rcases List.mem_cons.1 hmem with he | hm
          · exact RawItem.noConfusion he
          · exact hm
      | ok ds' d' ts' v' =>
          rcases List.mem_cons.1 hmem with he | hm
          · obtain ⟨rfl, rfl, rfl, rfl⟩ := RawItem.ok.inj he
            rw [process_items, validate_value_true_err rt _ hout]
          · cases hv : validate_value true rt (scale_to_chainlink v') with
            | error e =>
                have he : e = .validation := by
                  revert hv
                  unfold validate_value
                  simp only [Bool.not_true, Bool.false_eq_true, if_false]
                  split_ifs with h1 h2
                  · intro hv
                    exact (Except.error.inj hv).symm
                  · intro hv
                    exact (Except.error.inj hv).symm
                  · intro hv
                    exact hv.elim
                rw [process_items, hv, he]
            | ok u =>
                rw [process_items, hv, ih ⟨ds, d, ts, v, hm, hout⟩]
                rfl

/-- Claim C5: when processing a fetched batch with validation on, every
record whose date or value fails to parse is omitted from the result
without aborting the batch, while any record whose scaled value falls
outside the configured circuit-breaker bounds aborts the entire fetch
with a validation error, returning no partial results. -/
theorem process_response_policy (rt : RateType) (data : List RawItem) :
    ((∀ ds d ts v, RawItem.ok ds d ts v ∈ data →
        (RATE_CONFIGS rt).min_value ≤ scale_to_chainlink v ∧
          scale_to_chainlink v ≤ (RATE_CONFIGS rt).max_value) →
      process_response true data rt = .ok (sortByDateDesc (parsedRecords rt data)))
  ∧ ((∃ ds d ts v, RawItem.ok ds d ts v ∈ data ∧
        ¬((RATE_CONFIGS rt).min_value ≤ scale_to_chainlink v ∧
          scale_to_chainlink v ≤ (RATE_CONFIGS rt).max_value)) →
      process_response true data rt = .error .validation) := by
  constructor
  · intro h
    unfold process_response
    rw [process_items_all_parsed true rt data
      (fun ds d ts v hm => validate_value_true_ok rt _ (h ds d ts v hm))]
    rfl
  · intro h
    unfold process_response
    rw [process_items_err_of_out rt data h]
    rfl

/-- Witness for C5 at concrete inputs: a batch with one unparseable date
and one good CDI record yields just the good record (skip, no abort),
and a batch holding an out-of-range CDI value (10000.0%, scaled above
the 50% cap) aborts with the validation error. -/
theorem process_response_policy_witness :
    process_response true
        [.badDate "not-a-date", .ok "26/11/2024" 20241126 0 (109 / 10)] .CDI =
      .ok (sortByDateDesc (parsedRecords .CDI
        [.badDate "not-a-date", .ok "26/11/2024" 20241126 0 (109 / 10)]))
  ∧ process_response true [.ok "26/11/2024" 20241126 0 (10000 : ℚ)] .CDI =
      .error .validation := by
  have hscale1 : scale_to_chainlink (109 / 10) = 1090000000 := by
    norm_num [scale_to_chainlink, roundHalfEven, CHAINLINK_PRECISION,
      CHAINLINK_DECIMALS, Int.fract]
  have hscale2 : scale_to_chainlink (10000 : ℚ) = 1000000000000 := by
    norm_num [scale_to_chainlink, roundHalfEven, CHAINLINK_PRECISION,
      CHAINLINK_DECIMALS, Int.fract]
  constructor
  · refine (process_response_policy .CDI _).1 ?_
    rintro ds d ts v hv
    rcases List.mem_cons.1 hv with he | hv'
    · exact RawItem.noConfusion he
    · rcases List.mem_cons.1 hv' with he | hv''
      · obtain ⟨rfl, rfl, rfl, rfl⟩ := RawItem.ok.inj he
        rw [hscale1]
        exact ⟨by norm_num [RATE_CONFIGS], by norm_num [RATE_CONFIGS]⟩
      · simp at hv''
  · refine (process_response_policy .CDI _).2 ⟨"26/11/2024", 20241126, 0, 10000,
      List.mem_cons_self _ _, ?_⟩
    rw [hscale2]
    rintro ⟨h1, h2⟩
    norm_num [RATE_CONFIGS] at h2

/-- Claim C10: constructing the client with `validate=False` disables the
circuit breaker entirely: `_validate_value` returns without raising for
every rate type and every scaled value, so processing a batch never
raises a validation error and returns every parseable record — including
out-of-range ones — to the caller. -/
theorem validate_off_disables_circuit_breaker (rt : RateType) (s : ℤ)
    (data : List RawItem) :
    validate_value false rt s = .ok ()
  ∧ process_response false data rt = .ok (sortByDateDesc (parsedRecords rt data)) := by
  constructor
  · rfl
  · unfold process_response
    rw [process_items_all_parsed false rt data (fun _ _ _ _ _ => rfl)]
    rfl

/-- The sample variance is zero on histories shorter than 2 and strictly
positive whenever it is nonzero. -/
theorem sampleVariance_pos (l : List ℚ) (h : sampleVariance l ≠ 0) :
    0 < sampleVariance l := by
  rcases Nat.lt_or_ge l.length 2 with hl | hl
  · exfalso
    apply h
    match l, hl with
    | [], _ => simp [sampleVariance]
    | [a], _ => simp [sampleVariance, listMean]
  · have hden : (0 : ℚ) < (l.length : ℚ) - 1 := by
      have h2 : (2 : ℚ) ≤ (l.length : ℚ) := by exact_mod_cast hl
      linarith
    have hnum : 0 ≤ ((l.map (fun x => (x - listMean l) ^ 2)).sum) := by
      apply List.sum_nonneg
      intro x hx
      obtain ⟨y, _, rfl⟩ := List.mem_map.1 hx
      positivity
    rcases lt_or_eq_of_le (div_nonneg hnum hden.le) with hpos | heq
    · exact hpos
    · exact absurd heq.symm h

/-- Squared comparison against the variance is the z-score comparison
against the standard deviation, for a nonnegative threshold and positive
variance. -/
theorem z_sq_charac (d t v : ℝ) (ht : 0 ≤ t) (hv : 0 < v) :
    t ^ 2 * v < d ^ 2 ↔ t < |d| / Real.sqrt v := by
  have hs : 0 < Real.sqrt v := Real.sqrt_pos.2 hv
  constructor
  · intro h
    rw [lt_div_iff₀ hs]
    refine lt_of_pow_lt_pow_left₀ 2 (abs_nonneg d) ?_
    rw [mul_pow, Real.sq_sqrt hv.le, sq_abs]
    linarith
  · intro h
    have h1 : t * Real.sqrt v < |d| := (lt_div_iff₀ hs).1 h
    have h2 : (t * Real.sqrt v) ^ 2 < |d| ^ 2 :=
      pow_lt_pow_left₀ h1 (by positivity) (by norm_num)
    rw [mul_pow, Real.sq_sqrt hv.le, sq_abs] at h2
    linarith

/-- Claim C6: `detect_value_anomaly` (a) with fewer than
`min_history_size` historical values is never anomalous; (b) on a window
of zero sample standard deviation flags exactly the values different
from the constant mean, with saturating score 999; (c) otherwise, for a
nonnegative threshold, flags exactly when
`|current - mean| / stddev > std_threshold`; and on the spec's examples
(d) history `[10,10,10,10,10]` with current `15` flags while (e) history
`[10.0, 10.2, 10.1, 10.3, 10.0]` with threshold `3.0` and current
`10.15` does not. -/
theorem detect_value_anomaly_correct (det : AnomalyDetector) (c : ℚ)
    (hist : List ℚ) :
    (hist.length < det.min_history_size →
      (detect_value_anomaly det c hist).is_anomaly = false)
  ∧ (det.min_history_size ≤ hist.length → sampleVariance hist = 0 →
      ((detect_value_anomaly det c hist).is_anomaly = true ↔ c ≠ listMean hist)
      ∧ ((detect_value_anomaly det c hist).is_anomaly = true →
          (detect_value_anomaly det c hist).z_score = some 999))
  ∧ (det.min_history_size ≤ hist.length → sampleVariance hist ≠ 0 →
      0 ≤ det.std_threshold →
      ((detect_value_anomaly det c hist).is_anomaly = true ↔
        (det.std_threshold : ℝ) <
          |(c : ℝ) - (listMean hist : ℝ)| / Real.sqrt (sampleVariance hist : ℝ)))
  ∧ (detect_value_anomaly AnomalyDetector.default 15
      [10, 10, 10, 10, 10]).is_anomaly = true
  ∧ (detect_value_anomaly AnomalyDetector.default (1015 / 100)
      [10, 102 / 10, 101 / 10, 103 / 10, 10]).is_anomaly = false := by
  refine ⟨?_, ?_, ?_, ?_, ?_⟩
  · intro h
    unfold detect_value_anomaly
    rw [if_pos h]
  · intro hlen hvar
    unfold detect_value_anomaly
    rw [if_neg (by omega), if_pos hvar]
    constructor
    · exact decide_eq_true_iff
    · intro h
      simp only [decide_eq_true_iff] at h ⊢
      rw [if_pos (by simpa using h)]
  · intro hlen hvar ht
    have hpos := sampleVariance_pos hist hvar
    unfold detect_value_anomaly
    rw [if_neg (by omega), if_neg hvar]
    simp only [decide_eq_true_iff]
    constructor
    · rintro (h | h)
      · exact absurd h (not_lt.2 ht)
      · refine (z_sq_charac ((c : ℝ) - (listMean hist : ℝ)) _ _
          (by exact_mod_cast ht) (by exact_mod_cast hpos)).1 ?_
        exact_mod_cast h
    · intro h
      refine Or.inr ?_
      have := (z_sq_charac ((c : ℝ) - (listMean hist : ℝ)) _ _
        (by exact_mod_cast ht) (by exact_mod_cast hpos)).2 h
      push_cast at this
      exact_mod_cast this
  · norm_num [detect_value_anomaly, AnomalyDetector.default, listMean,
      sampleVariance]
  · norm_num [detect_value_anomaly, AnomalyDetector.default, listMean,
      sampleVariance]

/-- Witness for C6 at a concrete input on the statistics branch: with
history `[0, 0, 1, 2, 2]` (mean 1, sample variance 1) and current `6`,
the z-score is 5 > 3 and the detector flags an anomaly. -/
theorem detect_value_anomaly_correct_witness :
    (detect_value_anomaly AnomalyDetector.default 6 [0, 0, 1, 2, 2]).is_anomaly
      = true := by
  have hmean : listMean [0, 0, 1, 2, 2] = 1 := by norm_num [listMean]
  have hvar : sampleVariance [0, 0, 1, 2, 2] = 1 := by
    norm_num [sampleVariance, listMean]
  refine ((detect_value_anomaly_correct AnomalyDetector.default 6
    [0, 0, 1, 2, 2]).2.2.1 (by norm_num [AnomalyDetector.default])
    (by rw [hvar]; norm_num) (by norm_num [AnomalyDetector.default])).2 ?_
  rw [hmean, hvar]
  simp [AnomalyDetector.default, Real.sqrt_one]
  norm_num

/-- Claim C7: `detect_velocity_anomaly` treats zero→zero as not anomalous
and zero→nonzero as always anomalous; otherwise, for a positive time
delta, it flags exactly when the fractional change normalized to a
24-hour-equivalent daily rate exceeds the velocity threshold. -/
theorem detect_velocity_anomaly_correct (det : AnomalyDetector)
    (c p Δ : ℚ) (hΔ : 0 < Δ) :
    (p = 0 → c = 0 →
      (detect_velocity_anomaly det c p Δ).is_anomaly = false)
  ∧ (p = 0 → c ≠ 0 →
      (detect_velocity_anomaly det c p Δ).is_anomaly = true)
  ∧ (p ≠ 0 →
      ((detect_velocity_anomaly det c p Δ).is_anomaly = true ↔
        det.velocity_threshold < |c - p| / |p| * (24 / Δ))) := by
  refine ⟨?_, ?_, ?_⟩
  · intro hp hc
    unfold detect_velocity_anomaly
    rw [if_pos hp, if_pos hc]
  · intro hp hc
    unfold detect_velocity_anomaly
    rw [if_pos hp, if_neg hc]
  · intro hp
    simp only [detect_velocity_anomaly, if_neg hp, gt_iff_lt, if_pos hΔ,
      decide_eq_true_iff]

/-- Witness for C7 at a concrete input: going from 1 to 2 over 24 hours
is a 100% daily change, above the default 50% threshold. -/
theorem detect_velocity_anomaly_correct_witness :
    (detect_velocity_anomaly AnomalyDetector.default 2 1 24).is_anomaly
      = true := by
  refine ((detect_velocity_anomaly_correct AnomalyDetector.default 2 1 24
    (by norm_num)).2.2 (by norm_num)).2 ?_
  norm_num [AnomalyDetector.default]

/-- `Except.toOption` on a success. -/
theorem except_toOption_ok {ε β : Type _} (b : β) :
    (Except.ok b : Except ε β).toOption = some b := rfl

/-- `Except.toOption` on a failure. -/
theorem except_toOption_error {ε β : Type _} (e : ε) :
    (Except.error e : Except ε β).toOption = none := rfl

/-- `Except.isOk` on a success. -/
theorem except_isOk_ok {ε β : Type _} (b : β) :
    (Except.ok b : Except ε β).isOk = true := rfl

/-- `Except.isOk` on a failure. -/
theorem except_isOk_error {ε β : Type _} (e : ε) :
    (Except.error e : Except ε β).isOk = false := rfl

/-- Keeping the successes of a fallible map retains exactly as many
elements as there are successes. -/
theorem length_filterMap_toOption {α ε β : Type _} (f : α → Except ε β)
    (l : List α) :
    (l.filterMap (fun a => (f a).toOption)).length =
      (l.filter (fun a => (f a).isOk)).length := by
  induction l with
  | nil => rfl
  | cons a t ih =>
      rw [List.filterMap_cons, List.filter_cons]
      cases h : f a with
      | ok b =>
          simp only [except_toOption_ok, except_isOk_ok, if_pos,
            List.length_cons]
          omega
      | error e =>
          simpa only [except_toOption_error, except_isOk_error,
            Bool.false_eq_true, if_false] using ih

/-- A filter and its complement partition the length of a list. -/
theorem length_filter_add_length_filter_not {α : Type _} (l : List α)
    (p : α → Bool) :
    (l.filter p).length + (l.filter (fun a => !p a)).length = l.length := by
  induction l with
  | nil => rfl
  | cons a t ih =>
      cases h : p a <;>
        simp only [List.filter_cons, h, Bool.not_true, Bool.not_false,
          Bool.false_eq_true, if_false, if_pos, List.length_cons] <;>
        omega

/-- A non-nil list is not `isEmpty`. -/
theorem isEmpty_false_of_ne_nil {α : Type _} {l : List α} (h : l ≠ []) :
    l.isEmpty = false := by
  cases l with
  | nil => exact absurd rfl h
  | cons a t => rfl

/-- Evaluation of `sync_all_rates` on the successful-batch path: some
rate was fetched, some fetched rate needs an update, the transaction
neither raises nor reverts. -/
theorem sync_all_rates_success_eq (env : ChainEnv)
    (hne : (fetch_all_latest env).isEmpty = false)
    (hupdne : ((fetch_all_latest env).filter (needs_update env)).isEmpty = false)
    (hraise : env.txRaises = false) (hok : env.txOk = true) :
    sync_all_rates env =
      ({ success := true
         rates_updated := ((fetch_all_latest env).filter (needs_update env)).length
         rates_skipped :=
           ((fetch_all_latest env).filter (fun rd => !needs_update env rd)).length
         tx_sent := true
         error := none },
       some (fetch_all_latest env)) := by
  unfold sync_all_rates
  simp only [hne, hupdne, hraise, hok, Bool.false_eq_true, if_false, if_pos]

/-- Claim C8: running the update routine over the 6 rate types with the
fetch step succeeding for exactly 4 of them (and the batch transaction
going through, with at least one fetched rate needing an update) ends the
job run with status `completed`, reports `rates_failed = 2`, and submits
a batch holding exactly the 4 successfully fetched observations. -/
theorem update_rates_partial_failure (env : ChainEnv) (det : AnomalyDetector)
    (h4 : (RateType.all.filter (fun rt => (env.fetch rt).isOk)).length = 4)
    (hupd : ∃ rd ∈ fetch_all_latest env, needs_update env rd = true)
    (hraise : env.txRaises = false) (hok : env.txOk = true) :
    (update_rates env det RateType.all).run_status = "completed"
  ∧ (update_rates env det RateType.all).rates_failed = 2
  ∧ (update_rates env det RateType.all).submitted = some (fetch_all_latest env)
  ∧ (fetch_all_latest env).length = 4
  ∧ ∀ rd ∈ fetch_all_latest env, ∃ rt, env.fetch rt = .ok rd := by
  have hlen4 : (fetch_all_latest env).length = 4 := by
    rw [fetch_all_latest, length_filterMap_toOption]
    exact h4
  have hnnil : fetch_all_latest env ≠ [] := by
    intro hnil
    rw [hnil] at hlen4
    simp at hlen4
  have hne : (fetch_all_latest env).isEmpty = false := isEmpty_false_of_ne_nil hnnil
  have hupdne : ((fetch_all_latest env).filter (needs_update env)).isEmpty = false := by
    obtain ⟨rd, hmem, hnu⟩ := hupd
    exact isEmpty_false_of_ne_nil
      (List.ne_nil_of_mem (List.mem_filter.2 ⟨hmem, hnu⟩))
  have hsync := sync_all_rates_success_eq env hne hupdne hraise hok
  have hfail2 : (RateType.all.filter (fun rt => !(env.fetch rt).isOk)).length = 2 := by
    have := length_filter_add_length_filter_not RateType.all
      (fun rt => (env.fetch rt).isOk)
    have hall : RateType.all.length = 6 := rfl
    omega
  have hrun : update_rates env det RateType.all =
      { success := true
        rates_updated := ((fetch_all_latest env).filter (needs_update env)).length
        rates_skipped :=
          ((fetch_all_latest env).filter (fun rd => !needs_update env rd)).length
        rates_failed := 2
        anomalies_detected := ((fetch_all_latest env).filter (fun rd =>
          !(env.history rd.rate_type).isEmpty &&
            (detect_value_anomaly det rd.raw_value
              (env.history rd.rate_type)).is_anomaly)).length
        run_status := "completed"
        submitted := some (fetch_all_latest env) } := by
    unfold update_rates
    simp only [show (RateType.all.filterMap fun rt => (env.fetch rt).toOption) =
      fetch_all_latest env from rfl, hne, hsync, hfail2, Bool.false_eq_true,
      if_false, if_pos]
  refine ⟨by rw [hrun], by rw [hrun], by rw [hrun], hlen4, ?_⟩
  intro rd hmem
  rw [fetch_all_latest] at hmem
  obtain ⟨rt, _, hrt⟩ := List.mem_filterMap.1 hmem
  refine ⟨rt, ?_⟩
  cases hf : env.fetch rt with
  | ok b =>
      rw [hf] at hrt
      cases Option.some.inj hrt
      rfl
  | error e =>
      rw [hf] at hrt
      exact Option.noConfusion hrt

/-- Witness for C8 at a concrete input: 4 of 6 fetches succeed, the run
completes with `rates_failed = 2`. -/
theorem update_rates_partial_failure_witness :
    (update_rates envC8 AnomalyDetector.default RateType.all).run_status
      = "completed"
  ∧ (update_rates envC8 AnomalyDetector.default RateType.all).rates_failed = 2 := by
  have h := update_rates_partial_failure envC8 AnomalyDetector.default
    (by rfl)
    ⟨mkRateData .CDI "26/11/2024" 20241126 0 11,
      by simp [fetch_all_latest, RateType.all, envC8, Except.toOption],
      by simp [needs_update, check_needs_update, envC8]⟩
    rfl rfl
  exact ⟨h.1, h.2.1⟩

/-- Counterexample to claim C9: after this successful batch submission
the result reports `rates_updated = 1` — the pre-checked count — while
the transaction emitted 0 update events (`actual_updated`, which the code
computes and never uses), so the reported count does not equal the event
count. -/
theorem sync_all_rates_event_count_counterexample :
    (sync_all_rates envC9).1.success = true
  ∧ (sync_all_rates envC9).1.rates_updated = 1
  ∧ actual_updated envC9 = 0 := by
  have hne : (fetch_all_latest envC9).isEmpty = false := by
    simp [fetch_all_latest, RateType.all, envC9, Except.toOption]
  have hupdne : ((fetch_all_latest envC9).filter (needs_update envC9)).isEmpty
      = false := by
    simp [fetch_all_latest, RateType.all, envC9, Except.toOption, needs_update,
      check_needs_update]
  have hsync := sync_all_rates_success_eq envC9 hne hupdne rfl rfl
  rw [hsync]
  refine ⟨rfl, ?_, rfl⟩
  simp [fetch_all_latest, RateType.all, envC9, Except.toOption, needs_update,
    check_needs_update]

/-- Claim C9 amended: after a successful batch submission, the number
reported as `rates_updated` equals the number of items the client
pre-checked as needing an update (`len(to_update)`); the emitted-event
count is computed from the receipt (`actual_updated`) but is not used in
the result. -/
theorem sync_all_rates_reports_prechecked (env : ChainEnv)
    (hne : fetch_all_latest env ≠ []) (hupdne : to_update env ≠ [])
    (hraise : env.txRaises = false) (hok : env.txOk = true) :
    (sync_all_rates env).1.success = true
  ∧ (sync_all_rates env).1.rates_updated = (to_update env).length := by
  have hsync := sync_all_rates_success_eq env (isEmpty_false_of_ne_nil hne)
    (isEmpty_false_of_ne_nil hupdne) hraise hok
  rw [hsync]
  exact ⟨rfl, rfl⟩

/-- Witness for the amended C9 at a concrete input: in `envC9` one rate
was pre-checked as needing an update and `rates_updated` reports exactly
that count. -/
theorem sync_all_rates_reports_prechecked_witness :
    (sync_all_rates envC9).1.rates_updated = (to_update envC9).length := by
  refine (sync_all_rates_reports_prechecked envC9 ?_ ?_ rfl rfl).2
  · simp [fetch_all_latest, RateType.all, envC9, Except.toOption]
  · simp [to_update, fetch_all_latest, RateType.all, envC9, Except.toOption,
      needs_update, check_needs_update]

end Delos
